import Mathlib

/-!
Verification of the pcap-file component (`src/common/pcap-file.h`).

The repository ships only the header `pcap-file.h`: the declarations,
field layouts and documented contracts of `ns3::PcapFile`.  The bodies of
`Init`, `Write`, `Read`, `Diff`, the `Swap` overloads and
`ReadAndVerifyFileHeader` are not part of the sources, so every operation
below is modelled from the specification's description of those
operations, over a byte-level representation of a pcap file
(a `List Nat` of octets, host order taken to be little-endian).
-/

namespace Pcap

/-- The microsecond-resolution pcap magic number. -/
def MAGIC : Nat := 0xa1b2c3d4

/-- The byte-swapped counterpart of `MAGIC`. -/
def SWAPPED_MAGIC : Nat := 0xd4c3b2a1

/-- Expected pcap major version. -/
def VERSION_MAJOR : Nat := 2

/-- Expected pcap minor version. -/
def VERSION_MINOR : Nat := 4

/-- Default snapshot length (`PcapFile::SNAPLEN_DEFAULT`). -/
def SNAPLEN_DEFAULT : Nat := 65535

/-- Default time-zone correction (`PcapFile::ZONE_DEFAULT`). -/
def ZONE_DEFAULT : Nat := 0

/-- Modelled from the spec: the byte-order codec on 16-bit integers
(`PcapFile::Swap (uint16_t)`, body not in the sources).  Exchanges the
two octets of a 16-bit value. -/
def Swap16 (val : Nat) : Nat :=
  (val % 256) * 256 + (val / 256) % 256

/-- Modelled from the spec: the byte-order codec on 32-bit integers
(`PcapFile::Swap (uint32_t)`, body not in the sources).  Reverses the
four octets of a 32-bit value. -/
def Swap32 (val : Nat) : Nat :=
  (val % 256) * 16777216 + (val / 256 % 256) * 65536
    + (val / 65536 % 256) * 256 + (val / 16777216) % 256

/-- The 24-byte pcap file header (`PcapFile::PcapFileHeader`). -/
structure PcapFileHeader where
  m_magicNumber : Nat
  m_versionMajor : Nat
  m_versionMinor : Nat
  m_zone : Nat
  m_sigFigs : Nat
  m_snapLen : Nat
  m_type : Nat
deriving Repr, DecidableEq

/-- The 16-byte per-packet record header (`PcapFile::PcapRecordHeader`). -/
structure PcapRecordHeader where
  m_tsSec : Nat
  m_tsUsec : Nat
  m_inclLen : Nat
  m_origLen : Nat
deriving Repr, DecidableEq

/-- All fields of a file header are within their declared widths
(uint32/uint16; the zone field is stored as its 32-bit two's-complement
bit pattern). -/
def FileHeaderWF (h : PcapFileHeader) : Prop :=
  h.m_magicNumber < 4294967296 ∧ h.m_versionMajor < 65536 ∧
    h.m_versionMinor < 65536 ∧ h.m_zone < 4294967296 ∧
    h.m_sigFigs < 4294967296 ∧ h.m_snapLen < 4294967296 ∧
    h.m_type < 4294967296

instance (h : PcapFileHeader) : Decidable (FileHeaderWF h) := by
  unfold FileHeaderWF; infer_instance

/-- All fields of a record header are within 32 bits. -/
def RecordHeaderWF (r : PcapRecordHeader) : Prop :=
  r.m_tsSec < 4294967296 ∧ r.m_tsUsec < 4294967296 ∧
    r.m_inclLen < 4294967296 ∧ r.m_origLen < 4294967296

instance (r : PcapRecordHeader) : Decidable (RecordHeaderWF r) := by
  unfold RecordHeaderWF; infer_instance

/-- Modelled from the spec: the header-level swap
(`PcapFile::Swap (PcapFileHeader*, PcapFileHeader*)`, body not in the
sources).  Copies every field, swapping each according to its declared
width. -/
def SwapFileHeader (h : PcapFileHeader) : PcapFileHeader :=
  { m_magicNumber := Swap32 h.m_magicNumber
    m_versionMajor := Swap16 h.m_versionMajor
    m_versionMinor := Swap16 h.m_versionMinor
    m_zone := Swap32 h.m_zone
    m_sigFigs := Swap32 h.m_sigFigs
    m_snapLen := Swap32 h.m_snapLen
    m_type := Swap32 h.m_type }

/-- Modelled from the spec: the record-header-level swap
(`PcapFile::Swap (PcapRecordHeader*, PcapRecordHeader*)`, body not in
the sources). -/
def SwapRecordHeader (r : PcapRecordHeader) : PcapRecordHeader :=
  { m_tsSec := Swap32 r.m_tsSec
    m_tsUsec := Swap32 r.m_tsUsec
    m_inclLen := Swap32 r.m_inclLen
    m_origLen := Swap32 r.m_origLen }

/-- Serialize a 32-bit value in host (little-endian) octet order. -/
def u32le (val : Nat) : List Nat :=
  [val % 256, val / 256 % 256, val / 65536 % 256, val / 16777216 % 256]

/-- Serialize a 16-bit value in host (little-endian) octet order. -/
def u16le (val : Nat) : List Nat :=
  [val % 256, val / 256 % 256]

/-- Read a 32-bit value in host octet order from the head of a stream. -/
def rdU32 : List Nat → Option (Nat × List Nat)
  | b0 :: b1 :: b2 :: b3 :: rest =>
      some ((b0 % 256) + (b1 % 256) * 256 + (b2 % 256) * 65536
        + (b3 % 256) * 16777216, rest)
  | _ => none

/-- Read a 16-bit value in host octet order from the head of a stream. -/
def rdU16 : List Nat → Option (Nat × List Nat)
  | b0 :: b1 :: rest => some ((b0 % 256) + (b1 % 256) * 256, rest)
  | _ => none

theorem Swap16_digits (b0 b1 : Nat) (h0 : b0 < 256) (h1 : b1 < 256) :
    Swap16 (b0 + b1 * 256) = b1 + b0 * 256 := by
  unfold Swap16
  omega

theorem Swap32_digits (b0 b1 b2 b3 : Nat) (h0 : b0 < 256) (h1 : b1 < 256)
    (h2 : b2 < 256) (h3 : b3 < 256) :
    Swap32 (b0 + b1 * 256 + b2 * 65536 + b3 * 16777216)
      = b3 + b2 * 256 + b1 * 65536 + b0 * 16777216 := by
  unfold Swap32
  omega

theorem Swap16_involutive (v : Nat) (h : v < 65536) : Swap16 (Swap16 v) = v := by
  obtain ⟨b0, b1, h0, h1, rfl⟩ :
      ∃ b0 b1, b0 < 256 ∧ b1 < 256 ∧ v = b0 + b1 * 256 :=
    ⟨v % 256, v / 256, by omega, by omega, by omega⟩
  rw [Swap16_digits b0 b1 h0 h1, Swap16_digits b1 b0 h1 h0]

theorem Swap32_involutive (v : Nat) (h : v < 4294967296) :
    Swap32 (Swap32 v) = v := by
  obtain ⟨b0, b1, b2, b3, h0, h1, h2, h3, rfl⟩ :
      ∃ b0 b1 b2 b3, b0 < 256 ∧ b1 < 256 ∧ b2 < 256 ∧ b3 < 256 ∧
        v = b0 + b1 * 256 + b2 * 65536 + b3 * 16777216 :=
    ⟨v % 256, v / 256 % 256, v / 65536 % 256, v / 16777216,
      by omega, by omega, by omega, by omega, by omega⟩
  rw [Swap32_digits b0 b1 b2 b3 h0 h1 h2 h3,
    Swap32_digits b3 b2 b1 b0 h3 h2 h1 h0]

theorem Swap32_lt (v : Nat) : Swap32 v < 4294967296 := by
  unfold Swap32
  omega

theorem Swap16_lt (v : Nat) : Swap16 v < 65536 := by
  unfold Swap16
  omega

theorem SwapFileHeader_involutive (h : PcapFileHeader) (hwf : FileHeaderWF h) :
    SwapFileHeader (SwapFileHeader h) = h := by
  obtain ⟨w1, w2, w3, w4, w5, w6, w7⟩ := hwf
  cases h with
  | mk a b c d e f g =>
    simp only [SwapFileHeader, PcapFileHeader.mk.injEq]
    exact ⟨Swap32_involutive a w1, Swap16_involutive b w2,
      Swap16_involutive c w3, Swap32_involutive d w4, Swap32_involutive e w5,
      Swap32_involutive f w6, Swap32_involutive g w7⟩

theorem SwapRecordHeader_involutive (r : PcapRecordHeader)
    (hwf : RecordHeaderWF r) : SwapRecordHeader (SwapRecordHeader r) = r := by
  obtain ⟨w1, w2, w3, w4⟩ := hwf
  cases r with
  | mk a b c d =>
    simp only [SwapRecordHeader, PcapRecordHeader.mk.injEq]
    exact ⟨Swap32_involutive a w1, Swap32_involutive b w2,
      Swap32_involutive c w3, Swap32_involutive d w4⟩

theorem rdU32_u32le (v : Nat) (rest : List Nat) :
    rdU32 (u32le v ++ rest) = some (v % 4294967296, rest) := by
  simp only [u32le, List.cons_append, List.nil_append, rdU32,
    Option.some.injEq, Prod.mk.injEq]
  refine ⟨by omega, trivial⟩

theorem rdU16_u16le (v : Nat) (rest : List Nat) :
    rdU16 (u16le v ++ rest) = some (v % 65536, rest) := by
  simp only [u16le, List.cons_append, List.nil_append, rdU16,
    Option.some.injEq, Prod.mk.injEq]
  refine ⟨by omega, trivial⟩

theorem rdU32_ok (bs : List Nat) (v : Nat) (rest : List Nat)
    (h : rdU32 bs = some (v, rest)) :
    v < 4294967296 ∧ rest = bs.drop 4 ∧ 4 ≤ bs.length := by
  rcases bs with _ | ⟨b0, bs⟩
  · simp [rdU32] at h
  rcases bs with _ | ⟨b1, bs⟩
  · simp [rdU32] at h
  rcases bs with _ | ⟨b2, bs⟩
  · simp [rdU32] at h
  rcases bs with _ | ⟨b3, bs⟩
  · simp [rdU32] at h
  simp only [rdU32, Option.some.injEq, Prod.mk.injEq] at h
  obtain ⟨hv, hr⟩ := h
  refine ⟨by omega, by simp [hr.symm], by simp⟩

theorem rdU16_ok (bs : List Nat) (v : Nat) (rest : List Nat)
    (h : rdU16 bs = some (v, rest)) :
    v < 65536 ∧ rest = bs.drop 2 ∧ 2 ≤ bs.length := by
  rcases bs with _ | ⟨b0, bs⟩
  · simp [rdU16] at h
  rcases bs with _ | ⟨b1, bs⟩
  · simp [rdU16] at h
  simp only [rdU16, Option.some.injEq, Prod.mk.injEq] at h
  obtain ⟨hv, hr⟩ := h
  refine ⟨by omega, by simp [hr.symm], by simp⟩

theorem rdU32_eq_none_iff (bs : List Nat) : rdU32 bs = none ↔ bs.length < 4 := by
  rcases bs with _ | ⟨b0, _ | ⟨b1, _ | ⟨b2, _ | ⟨b3, rest⟩⟩⟩⟩ <;> simp [rdU32]

theorem rdU16_eq_none_iff (bs : List Nat) : rdU16 bs = none ↔ bs.length < 2 := by
  rcases bs with _ | ⟨b0, _ | ⟨b1, rest⟩⟩ <;> simp [rdU16]

/-- Modelled from the spec: the on-disk layout of the 24-byte pcap file
header, in host octet order field by field
(`PcapFile::WriteFileHeader`, body not in the sources). -/
def WriteFileHeader (h : PcapFileHeader) : List Nat :=
  u32le h.m_magicNumber ++ u16le h.m_versionMajor ++ u16le h.m_versionMinor
    ++ u32le h.m_zone ++ u32le h.m_sigFigs ++ u32le h.m_snapLen
    ++ u32le h.m_type

/-- On-disk layout of the 16-byte record header, in host octet order
field by field. -/
def WriteRecordHeader (r : PcapRecordHeader) : List Nat :=
  u32le r.m_tsSec ++ u32le r.m_tsUsec ++ u32le r.m_inclLen
    ++ u32le r.m_origLen

/-- Parse a 24-byte file header from the head of a byte stream. -/
def parseFileHeader (bs : List Nat) : Option (PcapFileHeader × List Nat) :=
  (rdU32 bs).bind fun p1 =>
  (rdU16 p1.2).bind fun p2 =>
  (rdU16 p2.2).bind fun p3 =>
  (rdU32 p3.2).bind fun p4 =>
  (rdU32 p4.2).bind fun p5 =>
  (rdU32 p5.2).bind fun p6 =>
  (rdU32 p6.2).bind fun p7 =>
  some ({ m_magicNumber := p1.1, m_versionMajor := p2.1,
          m_versionMinor := p3.1, m_zone := p4.1, m_sigFigs := p5.1,
          m_snapLen := p6.1, m_type := p7.1 }, p7.2)

/-- Parse a 16-byte record header from the head of a byte stream. -/
def parseRecordHeader (bs : List Nat) : Option (PcapRecordHeader × List Nat) :=
  (rdU32 bs).bind fun p1 =>
  (rdU32 p1.2).bind fun p2 =>
  (rdU32 p2.2).bind fun p3 =>
  (rdU32 p3.2).bind fun p4 =>
  some ({ m_tsSec := p1.1, m_tsUsec := p2.1, m_inclLen := p3.1,
          m_origLen := p4.1 }, p4.2)

theorem parseRecordHeader_write (r : PcapRecordHeader) (rest : List Nat)
    (hwf : RecordHeaderWF r) :
    parseRecordHeader (WriteRecordHeader r ++ rest) = some (r, rest) := by
  obtain ⟨w1, w2, w3, w4⟩ := hwf
  simp only [WriteRecordHeader, List.append_assoc, parseRecordHeader,
    rdU32_u32le, Option.some_bind, Nat.mod_eq_of_lt w1, Nat.mod_eq_of_lt w2,
    Nat.mod_eq_of_lt w3, Nat.mod_eq_of_lt w4]

theorem parseFileHeader_write (h : PcapFileHeader) (rest : List Nat)
    (hwf : FileHeaderWF h) :
    parseFileHeader (WriteFileHeader h ++ rest) = some (h, rest) := by
  obtain ⟨w1, w2, w3, w4, w5, w6, w7⟩ := hwf
  simp only [WriteFileHeader, List.append_assoc, parseFileHeader,
    rdU32_u32le, rdU16_u16le, Option.some_bind, Nat.mod_eq_of_lt w1,
    Nat.mod_eq_of_lt w2, Nat.mod_eq_of_lt w3, Nat.mod_eq_of_lt w4,
    Nat.mod_eq_of_lt w5, Nat.mod_eq_of_lt w6, Nat.mod_eq_of_lt w7]

theorem parseRecordHeader_eq_none_iff (bs : List Nat) :
    parseRecordHeader bs = none ↔ bs.length < 16 := by
  unfold parseRecordHeader
  cases h1 : rdU32 bs with
  | none =>
      have hl := (rdU32_eq_none_iff bs).1 h1
      simp only [Option.none_bind]
      simp only [true_iff]
      omega
  | some p1 =>
      obtain ⟨_, hr1, hl1⟩ := rdU32_ok bs p1.1 p1.2 h1
      have hlen1 : p1.2.length = bs.length - 4 := by simp [hr1]
      simp only [Option.some_bind]
      cases h2 : rdU32 p1.2 with
      | none =>
          have hl := (rdU32_eq_none_iff p1.2).1 h2
          simp only [Option.none_bind, true_iff]
          omega
      | some p2 =>
          obtain ⟨_, hr2, hl2⟩ := rdU32_ok p1.2 p2.1 p2.2 h2
          have hlen2 : p2.2.length = bs.length - 8 := by
            simp only [hr2, List.length_drop]
            omega
          simp only [Option.some_bind]
          cases h3 : rdU32 p2.2 with
          | none =>
              have hl := (rdU32_eq_none_iff p2.2).1 h3
              simp only [Option.none_bind, true_iff]
              omega
          | some p3 =>
              obtain ⟨_, hr3, hl3⟩ := rdU32_ok p2.2 p3.1 p3.2 h3
              have hlen3 : p3.2.length = bs.length - 12 := by
                simp only [hr3, List.length_drop]
                omega
              simp only [Option.some_bind]
              cases h4 : rdU32 p3.2 with
              | none =>
                  have hl := (rdU32_eq_none_iff p3.2).1 h4
                  simp only [Option.none_bind, true_iff]
                  omega
              | some p4 =>
                  obtain ⟨_, hr4, hl4⟩ := rdU32_ok p3.2 p4.1 p4.2 h4
                  have hge : ¬ bs.length < 16 := by omega
                  simp [hge]

theorem parseRecordHeader_ok (bs : List Nat) (r : PcapRecordHeader)
    (rest : List Nat) (h : parseRecordHeader bs = some (r, rest)) :
    RecordHeaderWF r ∧ rest = bs.drop 16 ∧ 16 ≤ bs.length := by
  unfold parseRecordHeader at h
  cases h1 : rdU32 bs with
  | none => rw [h1] at h; simp at h
  | some p1 =>
    rw [h1, Option.some_bind] at h
    obtain ⟨hv1, hr1, hl1⟩ := rdU32_ok bs p1.1 p1.2 h1
    cases h2 : rdU32 p1.2 with
    | none => rw [h2] at h; simp at h
    | some p2 =>
      rw [h2, Option.some_bind] at h
      obtain ⟨hv2, hr2, hl2⟩ := rdU32_ok p1.2 p2.1 p2.2 h2
      cases h3 : rdU32 p2.2 with
      | none => rw [h3] at h; simp at h
      | some p3 =>
        rw [h3, Option.some_bind] at h
        obtain ⟨hv3, hr3, hl3⟩ := rdU32_ok p2.2 p3.1 p3.2 h3
        cases h4 : rdU32 p3.2 with
        | none => rw [h4] at h; simp at h
        | some p4 =>
          rw [h4, Option.some_bind] at h
          obtain ⟨hv4, hr4, hl4⟩ := rdU32_ok p3.2 p4.1 p4.2 h4
          simp only [Option.some.injEq, Prod.mk.injEq] at h
          obtain ⟨hhdr, hrest⟩ := h
          refine ⟨?_, ?_, ?_⟩
          · rw [hhdr.symm]
            exact ⟨hv1, hv2, hv3, hv4⟩
          · rw [hrest.symm, hr4, hr3, hr2, hr1]
            simp [List.drop_drop]
          · have e1 : p1.2.length = bs.length - 4 := by simp [hr1]
            have e2 : p2.2.length = p1.2.length - 4 := by simp [hr2]
            have e3 : p3.2.length = p2.2.length - 4 := by simp [hr3]
            omega

/-- The error kinds an operation of the model can report. -/
inductive PcapError where
  | EndOfFile
  | FormatError
deriving Repr, DecidableEq

/-- Modelled from the spec: `PcapFile::ReadAndVerifyFileHeader` (body not
in the sources).  Reads the 24-byte header, checks the magic number
against the two recognized constants, sets the byte-order-mismatch flag
and swaps the in-memory fields when the swapped constant matched.
Returns the logical header, the mismatch flag, and the rest of the
stream. -/
def ReadAndVerifyFileHeader (bs : List Nat) :
    Except PcapError (PcapFileHeader × Bool × List Nat) :=
  match parseFileHeader bs with
  | none => .error .FormatError
  | some (raw, rest) =>
      if raw.m_magicNumber = MAGIC then .ok (raw, false, rest)
      else if raw.m_magicNumber = SWAPPED_MAGIC then
        .ok (SwapFileHeader raw, true, rest)
      else .error .FormatError

/-- Modelled from the spec: the header built by `PcapFile::Init` (body
not in the sources): canonical magic, version 2.4, caller-supplied
fields reduced to their 32-bit widths, sig-figs zero. -/
def buildFileHeader (dataLinkType snapLen zone : Nat) : PcapFileHeader :=
  { m_magicNumber := MAGIC
    m_versionMajor := VERSION_MAJOR
    m_versionMinor := VERSION_MINOR
    m_zone := zone % 4294967296
    m_sigFigs := 0
    m_snapLen := snapLen % 4294967296
    m_type := dataLinkType % 4294967296 }

/-- Modelled from the spec: the bytes `PcapFile::Init` puts at the start
of the file (body not in the sources).  The in-memory header holds
logical values; with `swapMode` set every field is pre-swapped before
being committed to the on-disk layout. -/
def Init (dataLinkType snapLen zone : Nat) (swapMode : Bool) : List Nat :=
  WriteFileHeader
    (if swapMode then SwapFileHeader (buildFileHeader dataLinkType snapLen zone)
     else buildFileHeader dataLinkType snapLen zone)

/-- Modelled from the spec: the bytes `PcapFile::Write` appends for one
packet (body not in the sources).  Builds a record header with included
length `min totalLen snapLen` and original length `totalLen`, swaps it
first when the mismatch flag is set, and writes the header followed by
the first `inclLen` octets of `data`. -/
def Write (snapLen : Nat) (swapMode : Bool) (tsSec tsUsec : Nat)
    (data : List Nat) (totalLen : Nat) : List Nat :=
  let inclLen := min (totalLen % 4294967296) (snapLen % 4294967296)
  let header : PcapRecordHeader :=
    { m_tsSec := tsSec % 4294967296
      m_tsUsec := tsUsec % 4294967296
      m_inclLen := inclLen
      m_origLen := totalLen % 4294967296 }
  WriteRecordHeader (if swapMode then SwapRecordHeader header else header)
    ++ data.take inclLen

/-- What one successful `Read` reports through its out-parameters. -/
structure ReadOut where
  tsSec : Nat
  tsUsec : Nat
  inclLen : Nat
  origLen : Nat
  readLen : Nat
  buffer : List Nat
deriving Repr, DecidableEq

/-- The record header in host order: swapped on read when the
byte-order-mismatch flag is set. -/
def hostOrderRH (swapMode : Bool) (raw : PcapRecordHeader) : PcapRecordHeader :=
  if swapMode then SwapRecordHeader raw else raw

/-- What a successful `Read` places in its out-parameters, given the
host-order record header and the stream positioned after that header. -/
def readOutOf (header : PcapRecordHeader) (maxBytes : Nat)
    (rest : List Nat) : ReadOut :=
  { tsSec := header.m_tsSec
    tsUsec := header.m_tsUsec
    inclLen := header.m_inclLen
    origLen := header.m_origLen
    readLen := min header.m_inclLen maxBytes
    buffer := rest.take (min header.m_inclLen maxBytes) }

/-- Modelled from the spec: `PcapFile::Read` (body not in the sources).
Reads one record header (swapping if the mismatch flag is set), fails
with `EndOfFile` when no header can be read and with `FormatError` when
the stream ends before the declared included length is satisfied;
otherwise copies `min inclLen maxBytes` octets into the caller's buffer
and consumes the whole record so the stream stays at the next record
boundary. -/
def Read (swapMode : Bool) (maxBytes : Nat) (bs : List Nat) :
    Except PcapError (ReadOut × List Nat) :=
  match parseRecordHeader bs with
  | none => .error .EndOfFile
  | some pr =>
      if pr.2.length < (hostOrderRH swapMode pr.1).m_inclLen
      then .error .FormatError
      else .ok (readOutOf (hostOrderRH swapMode pr.1) maxBytes pr.2,
                pr.2.drop (hostOrderRH swapMode pr.1).m_inclLen)

theorem Read_none (swapMode : Bool) (maxBytes : Nat) (bs : List Nat)
    (hp : parseRecordHeader bs = none) :
    Read swapMode maxBytes bs = .error .EndOfFile := by
  unfold Read
  rw [hp]

theorem Read_some (swapMode : Bool) (maxBytes : Nat) (bs : List Nat)
    (raw : PcapRecordHeader) (rest : List Nat)
    (hp : parseRecordHeader bs = some (raw, rest)) :
    Read swapMode maxBytes bs =
      if rest.length < (hostOrderRH swapMode raw).m_inclLen
      then .error .FormatError
      else .ok (readOutOf (hostOrderRH swapMode raw) maxBytes rest,
                rest.drop (hostOrderRH swapMode raw).m_inclLen) := by
  unfold Read
  rw [hp]

theorem Read_eq_EndOfFile_iff (swapMode : Bool) (maxBytes : Nat)
    (bs : List Nat) :
    Read swapMode maxBytes bs = .error .EndOfFile ↔ bs.length < 16 := by
  cases hp : parseRecordHeader bs with
  | none =>
      rw [Read_none swapMode maxBytes bs hp]
      simp only [true_iff]
      exact (parseRecordHeader_eq_none_iff bs).1 hp
  | some p =>
      obtain ⟨hwf, hrest, hlen⟩ := parseRecordHeader_ok bs p.1 p.2 hp
      rw [Read_some swapMode maxBytes bs p.1 p.2 hp]
      constructor
      · intro hc
        by_cases hlt : p.2.length < (hostOrderRH swapMode p.1).m_inclLen
        · rw [if_pos hlt] at hc
          simp at hc
        · rw [if_neg hlt] at hc
          simp at hc
      · intro hlt
        omega

theorem Read_eq_FormatError_iff (swapMode : Bool) (maxBytes : Nat)
    (bs : List Nat) :
    Read swapMode maxBytes bs = .error .FormatError ↔
      ∃ raw rest, parseRecordHeader bs = some (raw, rest) ∧
        rest.length < (hostOrderRH swapMode raw).m_inclLen := by
  cases hp : parseRecordHeader bs with
  | none =>
      rw [Read_none swapMode maxBytes bs hp]
      constructor
      · intro hc; simp at hc
      · rintro ⟨raw, rest, hsome, _⟩
        simp at hsome
  | some p =>
      obtain ⟨raw0, rest0⟩ := p
      rw [Read_some swapMode maxBytes bs raw0 rest0 hp]
      by_cases hlt : rest0.length < (hostOrderRH swapMode raw0).m_inclLen
      · rw [if_pos hlt]
        simp only [true_iff]
        exact ⟨raw0, rest0, rfl, hlt⟩
      · rw [if_neg hlt]
        constructor
        · intro hc; simp at hc
        · rintro ⟨raw, rest, hsome, hbad⟩
          simp only [Option.some.injEq, Prod.mk.injEq] at hsome
          obtain ⟨e1, e2⟩ := hsome
          subst e1
          subst e2
          exact absurd hbad hlt

theorem Read_ok (swapMode : Bool) (maxBytes : Nat) (bs : List Nat)
    (r : ReadOut) (rest : List Nat)
    (h : Read swapMode maxBytes bs = .ok (r, rest)) :
    r.readLen = min r.inclLen maxBytes ∧
      r.buffer = (bs.drop 16).take (min r.inclLen maxBytes) ∧
      r.buffer.length = min r.inclLen maxBytes ∧
      rest = (bs.drop 16).drop r.inclLen ∧
      r.inclLen ≤ (bs.drop 16).length ∧ 16 ≤ bs.length := by
  cases hp : parseRecordHeader bs with
  | none => rw [Read_none swapMode maxBytes bs hp] at h; simp at h
  | some p =>
      obtain ⟨raw0, rest0⟩ := p
      rw [Read_some swapMode maxBytes bs raw0 rest0 hp] at h
      obtain ⟨hwf, hrest, hlen⟩ := parseRecordHeader_ok bs raw0 rest0 hp
      by_cases hlt : rest0.length < (hostOrderRH swapMode raw0).m_inclLen
      · rw [if_pos hlt] at h
        simp at h
      · rw [if_neg hlt] at h
        simp only [Except.ok.injEq, Prod.mk.injEq] at h
        obtain ⟨hr, hrem⟩ := h
        rw [hr.symm, hrem.symm, hrest.symm]
        simp only [readOutOf, List.length_take]
        refine ⟨?_, ?_, ?_, ?_, ?_, ?_⟩ <;> first | trivial | omega

theorem Read_ok_length (swapMode : Bool) (maxBytes : Nat) (bs : List Nat)
    (r : ReadOut) (rest : List Nat)
    (h : Read swapMode maxBytes bs = .ok (r, rest)) :
    rest.length < bs.length := by
  obtain ⟨_, _, _, hrest, _, hlen⟩ := Read_ok swapMode maxBytes bs r rest h
  rw [hrest]
  simp only [List.length_drop]
  omega
theorem SwapRecordHeader_wf (r : PcapRecordHeader) :
    RecordHeaderWF (SwapRecordHeader r) :=
  ⟨Swap32_lt _, Swap32_lt _, Swap32_lt _, Swap32_lt _⟩

theorem SwapFileHeader_wf (h : PcapFileHeader) :
    FileHeaderWF (SwapFileHeader h) :=
  ⟨Swap32_lt _, Swap16_lt _, Swap16_lt _, Swap32_lt _, Swap32_lt _,
    Swap32_lt _, Swap32_lt _⟩

theorem ReadAndVerifyFileHeader_none (bs : List Nat)
    (hp : parseFileHeader bs = none) :
    ReadAndVerifyFileHeader bs = .error .FormatError := by
  unfold ReadAndVerifyFileHeader
  rw [hp]

theorem ReadAndVerifyFileHeader_some (bs : List Nat) (raw : PcapFileHeader)
    (rest : List Nat) (hp : parseFileHeader bs = some (raw, rest)) :
    ReadAndVerifyFileHeader bs =
      if raw.m_magicNumber = MAGIC then .ok (raw, false, rest)
      else if raw.m_magicNumber = SWAPPED_MAGIC then
        .ok (SwapFileHeader raw, true, rest)
      else .error .FormatError := by
  unfold ReadAndVerifyFileHeader
  rw [hp]

theorem hostOrderRH_write (swapMode : Bool) (rh : PcapRecordHeader)
    (hwf : RecordHeaderWF rh) :
    hostOrderRH swapMode (if swapMode then SwapRecordHeader rh else rh) = rh := by
  cases swapMode
  · simp [hostOrderRH]
  · simp [hostOrderRH, SwapRecordHeader_involutive rh hwf]

theorem Read_Write (snapLen : Nat) (swapMode : Bool) (tsSec tsUsec : Nat)
    (data : List Nat) (totalLen maxBytes : Nat) (rest : List Nat)
    (hts : tsSec < 4294967296) (htu : tsUsec < 4294967296)
    (htl : totalLen < 4294967296) (hsl : snapLen < 4294967296)
    (hdl : min totalLen snapLen ≤ data.length) :
    Read swapMode maxBytes
        (Write snapLen swapMode tsSec tsUsec data totalLen ++ rest) =
      .ok ({ tsSec := tsSec, tsUsec := tsUsec,
             inclLen := min totalLen snapLen, origLen := totalLen,
             readLen := min (min totalLen snapLen) maxBytes,
             buffer := data.take (min (min totalLen snapLen) maxBytes) },
           rest) := by
  have hW : Write snapLen swapMode tsSec tsUsec data totalLen =
      WriteRecordHeader
        (if swapMode then
          SwapRecordHeader
            { m_tsSec := tsSec, m_tsUsec := tsUsec,
              m_inclLen := min totalLen snapLen, m_origLen := totalLen }
         else
          { m_tsSec := tsSec, m_tsUsec := tsUsec,
            m_inclLen := min totalLen snapLen, m_origLen := totalLen })
        ++ data.take (min totalLen snapLen) := by
    unfold Write
    simp only [Nat.mod_eq_of_lt hts, Nat.mod_eq_of_lt htu,
      Nat.mod_eq_of_lt htl, Nat.mod_eq_of_lt hsl]
  have hwfr : RecordHeaderWF
      { m_tsSec := tsSec, m_tsUsec := tsUsec,
        m_inclLen := min totalLen snapLen, m_origLen := totalLen } :=
    ⟨hts, htu, by simp; omega, htl⟩
  have hwfr' : RecordHeaderWF
      (if swapMode then
        SwapRecordHeader
          { m_tsSec := tsSec, m_tsUsec := tsUsec,
            m_inclLen := min totalLen snapLen, m_origLen := totalLen }
       else
        { m_tsSec := tsSec, m_tsUsec := tsUsec,
          m_inclLen := min totalLen snapLen, m_origLen := totalLen }) := by
    cases swapMode
    · simpa using hwfr
    · simpa using SwapRecordHeader_wf _
  rw [hW, List.append_assoc]
  rw [Read_some swapMode maxBytes _ _ _ (parseRecordHeader_write _ _ hwfr')]
  rw [hostOrderRH_write swapMode _ hwfr]
  have htake : (data.take (min totalLen snapLen)).length = min totalLen snapLen := by
    simp only [List.length_take]
    omega
  rw [if_neg (by simp only [List.length_append, htake]; simp; omega)]
  simp only [readOutOf, Except.ok.injEq, Prod.mk.injEq]
  refine ⟨?_, ?_⟩
  · simp only [ReadOut.mk.injEq]
    refine ⟨trivial, trivial, trivial, trivial, trivial, ?_⟩
    rw [List.take_append_of_le_length (by omega), List.take_take]
    congr 1
    omega
  · exact List.drop_left' htake
/-- One packet as passed to `Write`: timestamp, payload and declared
total length. -/
structure Packet where
  tsSec : Nat
  tsUsec : Nat
  data : List Nat
  totalLen : Nat
deriving Repr, DecidableEq

/-- The bytes a sequence of `Write` calls appends after the header. -/
def writeAllRecords (snapLen : Nat) (swapMode : Bool) : List Packet → List Nat
  | [] => []
  | p :: ps => Write snapLen swapMode p.tsSec p.tsUsec p.data p.totalLen
      ++ writeAllRecords snapLen swapMode ps

/-- The whole file produced by `Init` followed by one `Write` per
packet. -/
def writeFile (dataLinkType snapLen zone : Nat) (swapMode : Bool)
    (pkts : List Packet) : List Nat :=
  Init dataLinkType snapLen zone swapMode
    ++ writeAllRecords snapLen swapMode pkts

/-- Repeated `Read` until the first error: the records produced, and
the error that ended the iteration. -/
def readAllE (swapMode : Bool) (maxBytes : Nat) (bs : List Nat) :
    List ReadOut × PcapError :=
  match hr : Read swapMode maxBytes bs with
  | .error e => ([], e)
  | .ok (r, rest) =>
      have : rest.length < bs.length :=
        Read_ok_length swapMode maxBytes bs r rest hr
      ((r :: (readAllE swapMode maxBytes rest).1),
        (readAllE swapMode maxBytes rest).2)
termination_by bs.length

theorem readAllE_error (swapMode : Bool) (maxBytes : Nat) (bs : List Nat)
    (e : PcapError) (h : Read swapMode maxBytes bs = .error e) :
    readAllE swapMode maxBytes bs = ([], e) := by
  rw [readAllE]
  split
  · rename_i e' he
    rw [h] at he
    simp only [Except.error.injEq] at he
    rw [he]
  · rename_i r rest he
    rw [h] at he
    simp at he

theorem readAllE_ok (swapMode : Bool) (maxBytes : Nat) (bs : List Nat)
    (r : ReadOut) (rest : List Nat)
    (h : Read swapMode maxBytes bs = .ok (r, rest)) :
    readAllE swapMode maxBytes bs =
      ((r :: (readAllE swapMode maxBytes rest).1),
        (readAllE swapMode maxBytes rest).2) := by
  rw [readAllE]
  split
  · rename_i e' he
    rw [h] at he
    simp at he
  · rename_i r' rest' he
    rw [h] at he
    simp only [Except.ok.injEq, Prod.mk.injEq] at he
    rw [he.1, he.2]

theorem readAllE_nil (swapMode : Bool) (maxBytes : Nat) :
    readAllE swapMode maxBytes [] = ([], .EndOfFile) :=
  readAllE_error swapMode maxBytes [] .EndOfFile
    ((Read_eq_EndOfFile_iff swapMode maxBytes []).2 (by simp))

theorem buildFileHeader_wf (d sl z : Nat) :
    FileHeaderWF (buildFileHeader d sl z) := by
  unfold buildFileHeader FileHeaderWF MAGIC VERSION_MAJOR VERSION_MINOR
  dsimp only
  refine ⟨by norm_num, by norm_num, by norm_num, by omega, by norm_num,
    by omega, by omega⟩

theorem ReadAndVerifyFileHeader_Init (d sl z : Nat) (swapMode : Bool)
    (rest : List Nat) :
    ReadAndVerifyFileHeader (Init d sl z swapMode ++ rest) =
      .ok (buildFileHeader d sl z, swapMode, rest) := by
  cases swapMode
  · unfold Init
    simp only [Bool.false_eq_true, if_false]
    rw [ReadAndVerifyFileHeader_some _ _ _
      (parseFileHeader_write _ rest (buildFileHeader_wf d sl z))]
    have hm : (buildFileHeader d sl z).m_magicNumber = MAGIC := rfl
    rw [if_pos hm]
  · unfold Init
    simp only [if_true]
    rw [ReadAndVerifyFileHeader_some _ _ _
      (parseFileHeader_write _ rest (SwapFileHeader_wf (buildFileHeader d sl z)))]
    have hmag : (SwapFileHeader (buildFileHeader d sl z)).m_magicNumber
        = SWAPPED_MAGIC := by
      show Swap32 MAGIC = SWAPPED_MAGIC
      norm_num [Swap32, MAGIC, SWAPPED_MAGIC]
    rw [if_neg (by rw [hmag]; norm_num [SWAPPED_MAGIC, MAGIC]), if_pos hmag]
    rw [SwapFileHeader_involutive _ (buildFileHeader_wf d sl z)]
/-- A packet handed to `Write` has 32-bit fields and carries exactly
`totalLen` payload octets. -/
def PacketWF (p : Packet) : Prop :=
  p.tsSec < 4294967296 ∧ p.tsUsec < 4294967296 ∧
    p.totalLen < 4294967296 ∧ p.data.length = p.totalLen

instance (p : Packet) : Decidable (PacketWF p) := by
  unfold PacketWF; infer_instance

/-- The out-parameters `Read` reports for a packet written against
snapshot length `snapLen` (caller buffer at least `snapLen` octets):
the original timestamps and total length, included length truncated at
the snapshot length, and the payload truncated to the snapshot
length. -/
def expectedOut (snapLen : Nat) (p : Packet) : ReadOut :=
  { tsSec := p.tsSec
    tsUsec := p.tsUsec
    inclLen := min p.totalLen snapLen
    origLen := p.totalLen
    readLen := min p.totalLen snapLen
    buffer := p.data.take snapLen }

theorem readAllE_writeAllRecords (snapLen : Nat) (swapMode : Bool)
    (maxBytes : Nat) (pkts : List Packet)
    (hwf : ∀ p ∈ pkts, PacketWF p)
    (hsl : snapLen < 4294967296) (hmb : snapLen ≤ maxBytes) :
    readAllE swapMode maxBytes (writeAllRecords snapLen swapMode pkts) =
      (pkts.map (expectedOut snapLen), .EndOfFile) := by
  induction pkts with
  | nil => simpa using readAllE_nil swapMode maxBytes
  | cons p ps ih =>
      obtain ⟨h1, h2, h3, h4⟩ := hwf p (by simp)
      have hstep := Read_Write snapLen swapMode p.tsSec p.tsUsec p.data
        p.totalLen maxBytes (writeAllRecords snapLen swapMode ps)
        h1 h2 h3 hsl (by omega)
      rw [writeAllRecords, readAllE_ok _ _ _ _ _ hstep,
        ih (fun q hq => hwf q (by simp [hq]))]
      have hmin : min (min p.totalLen snapLen) maxBytes
          = min p.totalLen snapLen := by omega
      have hbuf : p.data.take (min p.totalLen snapLen) = p.data.take snapLen := by
        rcases Nat.le_total p.totalLen snapLen with hle | hle
        · rw [Nat.min_eq_left hle, List.take_of_length_le (by omega),
            List.take_of_length_le (by omega)]
        · rw [Nat.min_eq_right hle]
      simp only [List.map_cons, expectedOut, hmin, hbuf]

/-- Modelled from the spec: reopening a file in read-only mode (header
validation via `ReadAndVerifyFileHeader`) and then calling `Read`
repeatedly until an error ends the iteration. -/
def readFile (maxBytes : Nat) (bs : List Nat) :
    Except PcapError (PcapFileHeader × Bool × List ReadOut × PcapError) :=
  match ReadAndVerifyFileHeader bs with
  | .error e => .error e
  | .ok hr => .ok (hr.1, hr.2.1, readAllE hr.2.1 maxBytes hr.2.2)
/-- Modelled from the spec: the error flag `Write` returns.  Truncation
of an oversized packet is an accepted non-error behavior, and the
byte-level model has no I/O failures, so the flag is always false
(success). -/
def WriteB (snapLen : Nat) (swapMode : Bool) (tsSec tsUsec : Nat)
    (data : List Nat) (totalLen : Nat) : Bool := false

/-- C1: for every sequence of (timestamp seconds, timestamp
microseconds, payload, total length) tuples written to a fresh file via
`Init` followed by `Write`, reopening the file read-only and calling
`Read` repeatedly reproduces exactly the same sequence of timestamps,
included lengths, original lengths and payload bytes, each payload
truncated to the snapshot length given to `Init`. -/
theorem C1_round_trip (dataLinkType snapLen zone maxBytes : Nat)
    (swapMode : Bool) (pkts : List Packet)
    (hwf : ∀ p ∈ pkts, PacketWF p)
    (hsl : snapLen < 4294967296) (hmb : snapLen ≤ maxBytes) :
    readFile maxBytes (writeFile dataLinkType snapLen zone swapMode pkts) =
      .ok (buildFileHeader dataLinkType snapLen zone, swapMode,
        pkts.map (expectedOut snapLen), .EndOfFile) := by
  unfold readFile writeFile
  rw [ReadAndVerifyFileHeader_Init]
  show Except.ok (buildFileHeader dataLinkType snapLen zone, swapMode,
      readAllE swapMode maxBytes (writeAllRecords snapLen swapMode pkts)) = _
  rw [readAllE_writeAllRecords snapLen swapMode maxBytes pkts hwf hsl hmb]

theorem C1_round_trip_witness :
    readFile 65535 (writeFile 1 2 0 true
        [{ tsSec := 7, tsUsec := 9, data := [10, 20, 30], totalLen := 3 }]) =
      .ok (buildFileHeader 1 2 0, true,
        List.map (expectedOut 2)
          [{ tsSec := 7, tsUsec := 9, data := [10, 20, 30], totalLen := 3 }],
        .EndOfFile) :=
  C1_round_trip 1 2 0 65535 true
    [{ tsSec := 7, tsUsec := 9, data := [10, 20, 30], totalLen := 3 }]
    (by decide) (by norm_num) (by norm_num)

/-- C2: `Write` builds a record header with included length
`min totalLen snapLen` and original length `totalLen`, writes that
header (its fields pre-swapped when the byte-order-mismatch flag is
set) before the first `inclLen` octets of the data, and a `totalLen`
exceeding `snapLen` is silently truncated: the operation reports no
error. -/
theorem C2_write_truncation (snapLen : Nat) (swapMode : Bool)
    (tsSec tsUsec totalLen : Nat) (data : List Nat)
    (hts : tsSec < 4294967296) (htu : tsUsec < 4294967296)
    (htl : totalLen < 4294967296) (hsl : snapLen < 4294967296) :
    Write snapLen swapMode tsSec tsUsec data totalLen =
      WriteRecordHeader
        (if swapMode then
          SwapRecordHeader
            { m_tsSec := tsSec, m_tsUsec := tsUsec,
              m_inclLen := min totalLen snapLen, m_origLen := totalLen }
         else
          { m_tsSec := tsSec, m_tsUsec := tsUsec,
            m_inclLen := min totalLen snapLen, m_origLen := totalLen })
        ++ data.take (min totalLen snapLen) ∧
    WriteB snapLen swapMode tsSec tsUsec data totalLen = false := by
  refine ⟨?_, rfl⟩
  unfold Write
  simp only [Nat.mod_eq_of_lt hts, Nat.mod_eq_of_lt htu,
    Nat.mod_eq_of_lt htl, Nat.mod_eq_of_lt hsl]

theorem C2_write_truncation_witness :
    Write 2 false 5 6 [1, 2, 3, 4] 4 =
      WriteRecordHeader
        { m_tsSec := 5, m_tsUsec := 6, m_inclLen := min 4 2, m_origLen := 4 }
        ++ [1, 2, 3, 4].take (min 4 2) ∧
    WriteB 2 false 5 6 [1, 2, 3, 4] 4 = false := by
  have h := C2_write_truncation 2 false 5 6 4 [1, 2, 3, 4]
    (by norm_num) (by norm_num) (by norm_num) (by norm_num)
  simpa using h

/-- C3: every successful `Read` copies exactly `min inclLen maxBytes`
octets into the caller buffer, reports that count in `readLen` (which
can be less than `inclLen` when `maxBytes < inclLen`), and consumes the
whole record so the stream is positioned at the start of the next
record (16 header octets plus `inclLen` payload octets past the record
start). -/
theorem C3_read_partial_copy (swapMode : Bool) (maxBytes : Nat)
    (bs : List Nat) (r : ReadOut) (rest : List Nat)
    (h : Read swapMode maxBytes bs = .ok (r, rest)) :
    r.buffer.length = min r.inclLen maxBytes ∧
      r.readLen = r.buffer.length ∧
      r.buffer = (bs.drop 16).take (min r.inclLen maxBytes) ∧
      rest = bs.drop (16 + r.inclLen) := by
  obtain ⟨ha, hb, hc, hd, he, hf⟩ := Read_ok swapMode maxBytes bs r rest h
  refine ⟨hc, by rw [ha, hc], hb, ?_⟩
  rw [hd, List.drop_drop]

theorem C3_read_partial_copy_witness :
    ∃ r rest, Read false 1
        (Write 65535 false 3 4 [7, 8, 9] 3 ++ [5]) = .ok (r, rest) ∧
      (r.buffer.length = min r.inclLen 1 ∧
        r.readLen = r.buffer.length ∧
        r.buffer = ((Write 65535 false 3 4 [7, 8, 9] 3 ++ [5]).drop 16).take
          (min r.inclLen 1) ∧
        rest = (Write 65535 false 3 4 [7, 8, 9] 3 ++ [5]).drop (16 + r.inclLen)) := by
  refine ⟨{ tsSec := 3, tsUsec := 4, inclLen := 3, origLen := 3,
            readLen := 1, buffer := [7] }, [5], rfl, ?_⟩
  exact C3_read_partial_copy false 1 (Write 65535 false 3 4 [7, 8, 9] 3 ++ [5])
    { tsSec := 3, tsUsec := 4, inclLen := 3, origLen := 3,
      readLen := 1, buffer := [7] } [5] rfl

/-- C5: when a full 24-byte header prefix parses, validation fails with
`FormatError` exactly when the magic number is neither the recognized
constant nor its byte-swapped counterpart; when the swapped constant
matched, the byte-order-mismatch flag is set and all fields are swapped
so the in-memory header holds host-order values. -/
theorem C5_magic_validation (bs : List Nat) (raw : PcapFileHeader)
    (rest : List Nat) (hp : parseFileHeader bs = some (raw, rest)) :
    (ReadAndVerifyFileHeader bs = .error .FormatError ↔
      raw.m_magicNumber ≠ MAGIC ∧ raw.m_magicNumber ≠ SWAPPED_MAGIC) ∧
    (raw.m_magicNumber = SWAPPED_MAGIC →
      ReadAndVerifyFileHeader bs = .ok (SwapFileHeader raw, true, rest)) ∧
    (raw.m_magicNumber = MAGIC →
      ReadAndVerifyFileHeader bs = .ok (raw, false, rest)) := by
  rw [ReadAndVerifyFileHeader_some bs raw rest hp]
  by_cases h1 : raw.m_magicNumber = MAGIC
  · rw [if_pos h1]
    refine ⟨by simp [h1], ?_, fun _ => rfl⟩
    intro h2
    rw [h1] at h2
    norm_num [MAGIC, SWAPPED_MAGIC] at h2
  · rw [if_neg h1]
    by_cases h2 : raw.m_magicNumber = SWAPPED_MAGIC
    · rw [if_pos h2]
      exact ⟨by simp [h1, h2], fun _ => rfl, fun hm => absurd hm h1⟩
    · rw [if_neg h2]
      exact ⟨by simp [h1, h2], fun hm => absurd hm h2, fun hm => absurd hm h1⟩

theorem C5_magic_validation_witness :
    ReadAndVerifyFileHeader (WriteFileHeader (buildFileHeader 1 5 0) ++ [])
      = .ok (buildFileHeader 1 5 0, false, []) :=
  (C5_magic_validation (WriteFileHeader (buildFileHeader 1 5 0) ++ [])
    (buildFileHeader 1 5 0) []
    (parseFileHeader_write (buildFileHeader 1 5 0) []
      (buildFileHeader_wf 1 5 0))).2.2 rfl

/-- C6: `Read` fails with `EndOfFile` exactly when no 16-byte record
header can be read from the stream, and with `FormatError` exactly when
a record header was read but the stream ends before the included length
it declares can be consumed. -/
theorem C6_read_errors (swapMode : Bool) (maxBytes : Nat) (bs : List Nat) :
    (Read swapMode maxBytes bs = .error .EndOfFile ↔ bs.length < 16) ∧
    (Read swapMode maxBytes bs = .error .FormatError ↔
      ∃ raw rest, parseRecordHeader bs = some (raw, rest) ∧
        rest.length < (hostOrderRH swapMode raw).m_inclLen) :=
  ⟨Read_eq_EndOfFile_iff swapMode maxBytes bs,
    Read_eq_FormatError_iff swapMode maxBytes bs⟩

theorem C6_read_errors_witness :
    Read false 65535 [1, 2, 3] = .error .EndOfFile :=
  (C6_read_errors false 65535 [1, 2, 3]).1.2 (by norm_num)

/-- C7: byte swapping is self-inverse on 16-bit and 32-bit values and
on both header types; the header-level swaps copy every field, swapping
each according to its declared width; all swap functions are total
(defined on every input). -/
theorem C7_swap_involution :
    (∀ v : Nat, v < 65536 → Swap16 (Swap16 v) = v) ∧
    (∀ v : Nat, v < 4294967296 → Swap32 (Swap32 v) = v) ∧
    (∀ h : PcapFileHeader, FileHeaderWF h →
      SwapFileHeader (SwapFileHeader h) = h) ∧
    (∀ r : PcapRecordHeader, RecordHeaderWF r →
      SwapRecordHeader (SwapRecordHeader r) = r) ∧
    (∀ h : PcapFileHeader,
      (SwapFileHeader h).m_magicNumber = Swap32 h.m_magicNumber ∧
        (SwapFileHeader h).m_versionMajor = Swap16 h.m_versionMajor ∧
        (SwapFileHeader h).m_versionMinor = Swap16 h.m_versionMinor ∧
        (SwapFileHeader h).m_zone = Swap32 h.m_zone ∧
        (SwapFileHeader h).m_sigFigs = Swap32 h.m_sigFigs ∧
        (SwapFileHeader h).m_snapLen = Swap32 h.m_snapLen ∧
        (SwapFileHeader h).m_type = Swap32 h.m_type) ∧
    (∀ r : PcapRecordHeader,
      (SwapRecordHeader r).m_tsSec = Swap32 r.m_tsSec ∧
        (SwapRecordHeader r).m_tsUsec = Swap32 r.m_tsUsec ∧
        (SwapRecordHeader r).m_inclLen = Swap32 r.m_inclLen ∧
        (SwapRecordHeader r).m_origLen = Swap32 r.m_origLen) :=
  ⟨Swap16_involutive, Swap32_involutive, SwapFileHeader_involutive,
    SwapRecordHeader_involutive,
    fun _ => ⟨rfl, rfl, rfl, rfl, rfl, rfl, rfl⟩,
    fun _ => ⟨rfl, rfl, rfl, rfl⟩⟩

theorem C7_swap_involution_witness :
    Swap16 (Swap16 4660) = 4660 ∧
      Swap32 (Swap32 2712847316) = 2712847316 :=
  ⟨C7_swap_involution.1 4660 (by norm_num),
    C7_swap_involution.2.1 2712847316 (by norm_num)⟩

/-- C8: building and physically writing a header with forceSwap set,
then parsing the file back, yields the same logical header values as
building one without forceSwap from the same parameters; the
byte-order-mismatch flag records the difference and the two files
differ physically. -/
theorem C8_byte_order_symmetry (dataLinkType snapLen zone : Nat) :
    ReadAndVerifyFileHeader (Init dataLinkType snapLen zone true) =
        .ok (buildFileHeader dataLinkType snapLen zone, true, []) ∧
    ReadAndVerifyFileHeader (Init dataLinkType snapLen zone false) =
        .ok (buildFileHeader dataLinkType snapLen zone, false, []) ∧
    Init dataLinkType snapLen zone true ≠
      Init dataLinkType snapLen zone false := by
  refine ⟨?_, ?_, ?_⟩
  · have h := ReadAndVerifyFileHeader_Init dataLinkType snapLen zone true []
    simpa using h
  · have h := ReadAndVerifyFileHeader_Init dataLinkType snapLen zone false []
    simpa using h
  · intro hcontra
    have h1 := ReadAndVerifyFileHeader_Init dataLinkType snapLen zone true []
    have h2 := ReadAndVerifyFileHeader_Init dataLinkType snapLen zone false []
    simp only [List.append_nil] at h1 h2
    rw [hcontra, h2] at h1
    simp at h1

theorem C8_byte_order_symmetry_witness :
    ReadAndVerifyFileHeader (Init 12 1500 0 true) =
      .ok (buildFileHeader 12 1500 0, true, []) :=
  (C8_byte_order_symmetry 12 1500 0).1
/-- The fields `Diff` compares for one record pair: included length,
original length, and the compared payload octets. -/
def projRecord (r : ReadOut) : Nat × Nat × List Nat :=
  (r.inclLen, r.origLen, r.buffer)

/-- Modelled from the spec: the lock-step comparison loop of
`PcapFile::Diff` (body not in the sources).  Reads one record from each
stream with a `snapLen`-octet caller buffer; both streams reporting
end-of-file simultaneously is the only way to finish "identical"; a
read failure on one side, a non-end-of-file ending, or a mismatch of
included length, original length or compared payload octets reports a
difference — a record mismatch carries the timestamp of the diverging
record. -/
def diffLoop (snapLen : Nat) (s1 s2 : Bool) (bs1 bs2 : List Nat) :
    Bool × Nat × Nat :=
  match h1 : Read s1 snapLen bs1 with
  | .error e1 =>
      match Read s2 snapLen bs2 with
      | .error e2 =>
          if e1 = .EndOfFile ∧ e2 = .EndOfFile then (false, 0, 0)
          else (true, 0, 0)
      | .ok _ => (true, 0, 0)
  | .ok pr1 =>
      match Read s2 snapLen bs2 with
      | .error _ => (true, 0, 0)
      | .ok pr2 =>
          if projRecord pr1.1 = projRecord pr2.1
          then diffLoop snapLen s1 s2 pr1.2 pr2.2
          else (true, pr1.1.tsSec, pr1.1.tsUsec)
termination_by bs1.length
decreasing_by exact Read_ok_length s1 snapLen bs1 pr1.1 pr1.2 h1

theorem diffLoop_error_error (snapLen : Nat) (s1 s2 : Bool)
    (bs1 bs2 : List Nat) (e1 e2 : PcapError)
    (h1 : Read s1 snapLen bs1 = .error e1)
    (h2 : Read s2 snapLen bs2 = .error e2) :
    diffLoop snapLen s1 s2 bs1 bs2 =
      if e1 = .EndOfFile ∧ e2 = .EndOfFile then (false, 0, 0)
      else (true, 0, 0) := by
  rw [diffLoop]
  split
  · rename_i e1' he1
    rw [h1] at he1
    simp only [Except.error.injEq] at he1
    subst he1
    rw [h2]
  · rename_i pr1 hpr
    rw [h1] at hpr
    simp at hpr

theorem diffLoop_error_ok (snapLen : Nat) (s1 s2 : Bool)
    (bs1 bs2 : List Nat) (e1 : PcapError) (pr2 : ReadOut × List Nat)
    (h1 : Read s1 snapLen bs1 = .error e1)
    (h2 : Read s2 snapLen bs2 = .ok pr2) :
    diffLoop snapLen s1 s2 bs1 bs2 = (true, 0, 0) := by
  rw [diffLoop]
  split
  · rename_i e1' he1
    rw [h2]
  · rename_i pr1 hpr
    rw [h1] at hpr
    simp at hpr

theorem diffLoop_ok_error (snapLen : Nat) (s1 s2 : Bool)
    (bs1 bs2 : List Nat) (pr1 : ReadOut × List Nat) (e2 : PcapError)
    (h1 : Read s1 snapLen bs1 = .ok pr1)
    (h2 : Read s2 snapLen bs2 = .error e2) :
    diffLoop snapLen s1 s2 bs1 bs2 = (true, 0, 0) := by
  rw [diffLoop]
  split
  · rename_i e1' he1
    rw [h1] at he1
    simp at he1
  · rename_i pr1' hpr
    rw [h2]

theorem diffLoop_ok_ok (snapLen : Nat) (s1 s2 : Bool)
    (bs1 bs2 : List Nat) (r1 r2 : ReadOut) (rest1 rest2 : List Nat)
    (h1 : Read s1 snapLen bs1 = .ok (r1, rest1))
    (h2 : Read s2 snapLen bs2 = .ok (r2, rest2)) :
    diffLoop snapLen s1 s2 bs1 bs2 =
      if projRecord r1 = projRecord r2
      then diffLoop snapLen s1 s2 rest1 rest2
      else (true, r1.tsSec, r1.tsUsec) := by
  rw [diffLoop]
  split
  · rename_i e1' he1
    rw [h1] at he1
    simp at he1
  · rename_i pr1' hpr
    rw [h1] at hpr
    simp only [Except.ok.injEq] at hpr
    subst hpr
    rw [h2]
theorem Read_maxBytes_cases (swapMode : Bool) (m1 m2 : Nat) (bs : List Nat) :
    (∃ e, Read swapMode m1 bs = .error e ∧ Read swapMode m2 bs = .error e) ∨
    (∃ r1 r2 rest, Read swapMode m1 bs = .ok (r1, rest) ∧
      Read swapMode m2 bs = .ok (r2, rest)) := by
  cases hp : parseRecordHeader bs with
  | none =>
      exact Or.inl ⟨.EndOfFile, Read_none swapMode m1 bs hp,
        Read_none swapMode m2 bs hp⟩
  | some p =>
      obtain ⟨raw, rest0⟩ := p
      by_cases hlt : rest0.length < (hostOrderRH swapMode raw).m_inclLen
      · refine Or.inl ⟨.FormatError, ?_, ?_⟩ <;>
          rw [Read_some _ _ _ _ _ hp, if_pos hlt]
      · refine Or.inr ⟨readOutOf (hostOrderRH swapMode raw) m1 rest0,
          readOutOf (hostOrderRH swapMode raw) m2 rest0,
          rest0.drop (hostOrderRH swapMode raw).m_inclLen, ?_, ?_⟩ <;>
          rw [Read_some _ _ _ _ _ hp, if_neg hlt]

theorem readAllE_error_indep (swapMode : Bool) (m1 m2 : Nat)
    (bs : List Nat) :
    (readAllE swapMode m1 bs).2 = (readAllE swapMode m2 bs).2 := by
  rcases Read_maxBytes_cases swapMode m1 m2 bs with
    ⟨e, he1, he2⟩ | ⟨r1, r2, rest, ho1, ho2⟩
  · rw [readAllE_error _ _ _ _ he1, readAllE_error _ _ _ _ he2]
  · rw [readAllE_ok _ _ _ _ _ ho1, readAllE_ok _ _ _ _ _ ho2]
    exact readAllE_error_indep swapMode m1 m2 rest
termination_by bs.length
decreasing_by exact Read_ok_length swapMode m1 bs r1 rest ho1

/-- Modelled from the spec: `PcapFile::Diff` (body not in the sources).
Opens both byte streams read-only; an open/validation failure or any
difference in the logical header field values reports the files as
different immediately; otherwise the lock-step record comparison
decides.  The first component is the error-style flag (`true` = files
differ), the second and third are the reported seconds/microseconds
timestamp (meaningful only for a record mismatch). -/
def Diff (f1 f2 : List Nat) (snapLen : Nat) : Bool × Nat × Nat :=
  match ReadAndVerifyFileHeader f1 with
  | .error _ => (true, 0, 0)
  | .ok hr1 =>
      match ReadAndVerifyFileHeader f2 with
      | .error _ => (true, 0, 0)
      | .ok hr2 =>
          if hr1.1 = hr2.1
          then diffLoop snapLen hr1.2.1 hr2.2.1 hr1.2.2 hr2.2.2
          else (true, 0, 0)

theorem Diff_error_left (f1 f2 : List Nat) (snapLen : Nat) (e : PcapError)
    (h : ReadAndVerifyFileHeader f1 = .error e) :
    Diff f1 f2 snapLen = (true, 0, 0) := by
  unfold Diff
  rw [h]

theorem Diff_error_right (f1 f2 : List Nat) (snapLen : Nat)
    (hr1 : PcapFileHeader × Bool × List Nat) (e : PcapError)
    (h1 : ReadAndVerifyFileHeader f1 = .ok hr1)
    (h2 : ReadAndVerifyFileHeader f2 = .error e) :
    Diff f1 f2 snapLen = (true, 0, 0) := by
  unfold Diff
  rw [h1, h2]

theorem Diff_ok_ok (f1 f2 : List Nat) (snapLen : Nat)
    (h1 h2 : PcapFileHeader) (s1 s2 : Bool) (r1 r2 : List Nat)
    (hv1 : ReadAndVerifyFileHeader f1 = .ok (h1, s1, r1))
    (hv2 : ReadAndVerifyFileHeader f2 = .ok (h2, s2, r2)) :
    Diff f1 f2 snapLen =
      if h1 = h2 then diffLoop snapLen s1 s2 r1 r2 else (true, 0, 0) := by
  unfold Diff
  rw [hv1, hv2]

/-- Two byte streams hold identical pcap content for comparison
purposes: both headers validate, the logical header field values agree,
and both record sequences read to a clean end-of-file with identical
included length, original length and compared payload octets for every
record pair. -/
def FilesIdentical (snapLen : Nat) (f1 f2 : List Nat) : Prop :=
  ∃ h1 s1 r1 h2 s2 r2,
    ReadAndVerifyFileHeader f1 = .ok (h1, s1, r1) ∧
    ReadAndVerifyFileHeader f2 = .ok (h2, s2, r2) ∧
    h1 = h2 ∧
    (readAllE s1 snapLen r1).1.map projRecord
      = (readAllE s2 snapLen r2).1.map projRecord ∧
    (readAllE s1 snapLen r1).2 = .EndOfFile ∧
    (readAllE s2 snapLen r2).2 = .EndOfFile

theorem diffLoop_eq_false_iff (snapLen : Nat) (s1 s2 : Bool)
    (bs1 bs2 : List Nat) :
    (diffLoop snapLen s1 s2 bs1 bs2).1 = false ↔
      ((readAllE s1 snapLen bs1).1.map projRecord
          = (readAllE s2 snapLen bs2).1.map projRecord ∧
        (readAllE s1 snapLen bs1).2 = .EndOfFile ∧
        (readAllE s2 snapLen bs2).2 = .EndOfFile) := by
  cases hr1 : Read s1 snapLen bs1 with
  | error e1 =>
      cases hr2 : Read s2 snapLen bs2 with
      | error e2 =>
          rw [diffLoop_error_error _ _ _ _ _ _ _ hr1 hr2,
            readAllE_error _ _ _ _ hr1, readAllE_error _ _ _ _ hr2]
          by_cases hb : e1 = PcapError.EndOfFile ∧ e2 = PcapError.EndOfFile
          · rw [if_pos hb]
            simp [hb.1, hb.2]
          · rw [if_neg hb]
            simp only [List.map_nil, true_and]
            constructor
            · intro hc; simp at hc
            · intro hc; exact absurd hc hb
      | ok pr2 =>
          obtain ⟨r2, rest2⟩ := pr2
          rw [diffLoop_error_ok _ _ _ _ _ _ _ hr1 hr2,
            readAllE_error _ _ _ _ hr1, readAllE_ok _ _ _ _ _ hr2]
          simp
  | ok pr1 =>
      obtain ⟨r1, rest1⟩ := pr1
      cases hr2 : Read s2 snapLen bs2 with
      | error e2 =>
          rw [diffLoop_ok_error _ _ _ _ _ _ _ hr1 hr2,
            readAllE_ok _ _ _ _ _ hr1, readAllE_error _ _ _ _ hr2]
          simp
      | ok pr2 =>
          obtain ⟨r2, rest2⟩ := pr2
          rw [diffLoop_ok_ok _ _ _ _ _ _ _ _ _ hr1 hr2,
            readAllE_ok _ _ _ _ _ hr1, readAllE_ok _ _ _ _ _ hr2]
          by_cases heq : projRecord r1 = projRecord r2
          · rw [if_pos heq]
            rw [diffLoop_eq_false_iff snapLen s1 s2 rest1 rest2]
            simp only [List.map_cons, List.cons.injEq, heq]
            constructor
            · rintro ⟨hm, he1, he2⟩
              exact ⟨⟨trivial, hm⟩, he1, he2⟩
            · rintro ⟨⟨_, hm⟩, he1, he2⟩
              exact ⟨hm, he1, he2⟩
          · rw [if_neg heq]
            simp only [List.map_cons, List.cons.injEq]
            constructor
            · intro hc; simp at hc
            · rintro ⟨⟨hhead, _⟩, _, _⟩
              exact absurd hhead heq
termination_by bs1.length
decreasing_by exact Read_ok_length s1 snapLen bs1 r1 rest1 hr1

theorem Diff_eq_false_iff (snapLen : Nat) (f1 f2 : List Nat) :
    (Diff f1 f2 snapLen).1 = false ↔ FilesIdentical snapLen f1 f2 := by
  unfold FilesIdentical
  cases hv1 : ReadAndVerifyFileHeader f1 with
  | error e =>
      rw [Diff_error_left f1 f2 snapLen e hv1]
      simp
  | ok hr1 =>
      obtain ⟨h1, s1, r1⟩ := hr1
      cases hv2 : ReadAndVerifyFileHeader f2 with
      | error e =>
          rw [Diff_error_right f1 f2 snapLen _ e hv1 hv2]
          simp
      | ok hr2 =>
          obtain ⟨h2, s2, r2⟩ := hr2
          rw [Diff_ok_ok f1 f2 snapLen h1 h2 s1 s2 r1 r2 hv1 hv2]
          by_cases hh : h1 = h2
          · rw [if_pos hh, diffLoop_eq_false_iff]
            constructor
            · rintro ⟨hm, he1, he2⟩
              exact ⟨h1, s1, r1, h2, s2, r2, rfl, rfl, hh, hm, he1, he2⟩
            · rintro ⟨h1', s1', r1', h2', s2', r2', hv1', hv2', hhh, hm, he1, he2⟩
              simp only [Except.ok.injEq, Prod.mk.injEq] at hv1' hv2'
              obtain ⟨e1, e2, e3⟩ := hv1'
              obtain ⟨e4, e5, e6⟩ := hv2'
              subst e1
              subst e2
              subst e3
              subst e4
              subst e5
              subst e6
              exact ⟨hm, he1, he2⟩
          · rw [if_neg hh]
            constructor
            · intro hc; simp at hc
            · rintro ⟨h1', s1', r1', h2', s2', r2', hv1', hv2', hhh, _⟩
              simp only [Except.ok.injEq, Prod.mk.injEq] at hv1' hv2'
              obtain ⟨e1, e2, e3⟩ := hv1'
              obtain ⟨e4, e5, e6⟩ := hv2'
              subst e1
              subst e4
              exact absurd hhh hh
theorem readAllE_cons (swapMode : Bool) (maxBytes : Nat) (bs : List Nat)
    (x : ReadOut) (L : List ReadOut)
    (h : (readAllE swapMode maxBytes bs).1 = x :: L) :
    ∃ rest, Read swapMode maxBytes bs = .ok (x, rest) ∧
      (readAllE swapMode maxBytes rest).1 = L := by
  cases hr : Read swapMode maxBytes bs with
  | error e =>
      rw [readAllE_error _ _ _ _ hr] at h
      simp at h
  | ok pr =>
      obtain ⟨r, rest⟩ := pr
      rw [readAllE_ok _ _ _ _ _ hr] at h
      simp only [List.cons.injEq] at h
      obtain ⟨hx, hL⟩ := h
      subst hx
      exact ⟨rest, rfl, hL⟩

theorem diffLoop_first_mismatch (snapLen : Nat) (s1 s2 : Bool)
    (pre1 : List ReadOut) :
    ∀ (pre2 : List ReadOut) (a1 a2 : ReadOut) (t1 t2 : List ReadOut)
      (bs1 bs2 : List Nat),
      (readAllE s1 snapLen bs1).1 = pre1 ++ a1 :: t1 →
      (readAllE s2 snapLen bs2).1 = pre2 ++ a2 :: t2 →
      pre1.map projRecord = pre2.map projRecord →
      projRecord a1 ≠ projRecord a2 →
      diffLoop snapLen s1 s2 bs1 bs2 = (true, a1.tsSec, a1.tsUsec) := by
  induction pre1 with
  | nil =>
      intro pre2 a1 a2 t1 t2 bs1 bs2 hl1 hl2 hpre hne
      have hp2 : pre2 = [] := by
        cases pre2 with
        | nil => rfl
        | cons y ys => simp at hpre
      subst hp2
      simp only [List.nil_append] at hl1 hl2
      obtain ⟨rest1, hr1, ht1⟩ := readAllE_cons _ _ _ _ _ hl1
      obtain ⟨rest2, hr2, ht2⟩ := readAllE_cons _ _ _ _ _ hl2
      rw [diffLoop_ok_ok _ _ _ _ _ _ _ _ _ hr1 hr2, if_neg hne]
  | cons x xs ih =>
      intro pre2 a1 a2 t1 t2 bs1 bs2 hl1 hl2 hpre hne
      cases pre2 with
      | nil => simp at hpre
      | cons y ys =>
          simp only [List.map_cons, List.cons.injEq] at hpre
          obtain ⟨hxy, hys⟩ := hpre
          simp only [List.cons_append] at hl1 hl2
          obtain ⟨rest1, hr1, ht1⟩ := readAllE_cons _ _ _ _ _ hl1
          obtain ⟨rest2, hr2, ht2⟩ := readAllE_cons _ _ _ _ _ hl2
          rw [diffLoop_ok_ok _ _ _ _ _ _ _ _ _ hr1 hr2, if_pos hxy]
          exact ih ys a1 a2 t1 t2 rest1 rest2 ht1 ht2 hys hne

/-- C4: `Diff` reports the files as differing if either open/validation
fails, if any logical header field values differ, or if one file has
more records than the other; otherwise it compares record pairs in
lock-step on included length, original length and the compared payload
octets, reports the first mismatch with that record of the first file
carrying its seconds/microseconds timestamp, and reports the files
identical exactly when both streams reach end-of-file simultaneously
with no prior divergence. -/
theorem C4_diff_behavior (f1 f2 : List Nat) (snapLen : Nat) :
    (((∃ e, ReadAndVerifyFileHeader f1 = .error e) ∨
        (∃ e, ReadAndVerifyFileHeader f2 = .error e)) →
      (Diff f1 f2 snapLen).1 = true) ∧
    (∀ h1 s1 r1 h2 s2 r2,
      ReadAndVerifyFileHeader f1 = .ok (h1, s1, r1) →
      ReadAndVerifyFileHeader f2 = .ok (h2, s2, r2) →
      h1 ≠ h2 → (Diff f1 f2 snapLen).1 = true) ∧
    (∀ h1 s1 r1 h2 s2 r2,
      ReadAndVerifyFileHeader f1 = .ok (h1, s1, r1) →
      ReadAndVerifyFileHeader f2 = .ok (h2, s2, r2) →
      (readAllE s1 snapLen r1).1.length ≠ (readAllE s2 snapLen r2).1.length →
      (Diff f1 f2 snapLen).1 = true) ∧
    ((Diff f1 f2 snapLen).1 = false ↔ FilesIdentical snapLen f1 f2) ∧
    (∀ h1 s1 r1 h2 s2 r2 pre1 pre2 a1 a2 t1 t2,
      ReadAndVerifyFileHeader f1 = .ok (h1, s1, r1) →
      ReadAndVerifyFileHeader f2 = .ok (h2, s2, r2) →
      h1 = h2 →
      (readAllE s1 snapLen r1).1 = pre1 ++ a1 :: t1 →
      (readAllE s2 snapLen r2).1 = pre2 ++ a2 :: t2 →
      pre1.map projRecord = pre2.map projRecord →
      projRecord a1 ≠ projRecord a2 →
      Diff f1 f2 snapLen = (true, a1.tsSec, a1.tsUsec)) := by
  refine ⟨?_, ?_, ?_, Diff_eq_false_iff snapLen f1 f2, ?_⟩
  · rintro (⟨e, he⟩ | ⟨e, he⟩)
    · rw [Diff_error_left f1 f2 snapLen e he]
    · cases hv1 : ReadAndVerifyFileHeader f1 with
      | error e1 => rw [Diff_error_left f1 f2 snapLen e1 hv1]
      | ok hr1 => rw [Diff_error_right f1 f2 snapLen hr1 e hv1 he]
  · intro h1 s1 r1 h2 s2 r2 hv1 hv2 hne
    rw [Diff_ok_ok f1 f2 snapLen h1 h2 s1 s2 r1 r2 hv1 hv2, if_neg hne]
  · intro h1 s1 r1 h2 s2 r2 hv1 hv2 hlen
    by_contra hc
    have hfalse : (Diff f1 f2 snapLen).1 = false := by
      cases hd : (Diff f1 f2 snapLen).1
      · rfl
      · exact absurd hd hc
    obtain ⟨h1', s1', r1', h2', s2', r2', hv1', hv2', hhh, hm, _, _⟩ :=
      (Diff_eq_false_iff snapLen f1 f2).1 hfalse
    rw [hv1] at hv1'
    rw [hv2] at hv2'
    simp only [Except.ok.injEq, Prod.mk.injEq] at hv1' hv2'
    obtain ⟨e1, e2, e3⟩ := hv1'
    obtain ⟨e4, e5, e6⟩ := hv2'
    subst e2
    subst e3
    subst e5
    subst e6
    have hlm := congrArg List.length hm
    simp only [List.length_map] at hlm
    exact hlen hlm
  · intro h1 s1 r1 h2 s2 r2 pre1 pre2 a1 a2 t1 t2 hv1 hv2 hh hl1 hl2 hpre hne
    rw [Diff_ok_ok f1 f2 snapLen h1 h2 s1 s2 r1 r2 hv1 hv2, if_pos hh]
    exact diffLoop_first_mismatch snapLen s1 s2 pre1 pre2 a1 a2 t1 t2 r1 r2
      hl1 hl2 hpre hne

theorem C4_diff_behavior_witness : (Diff [] [] 65535).1 = true :=
  (C4_diff_behavior [] [] 65535).1 (Or.inl ⟨.FormatError, rfl⟩)

/-- A valid pcap file: the header validates and the record sequence
reads to a clean end-of-file. -/
def ValidPcapFile (bs : List Nat) : Prop :=
  ∃ h s r, ReadAndVerifyFileHeader bs = .ok (h, s, r) ∧
    (readAllE s SNAPLEN_DEFAULT r).2 = .EndOfFile

theorem writeFile_valid (d sl z : Nat) (sm : Bool) (pkts : List Packet)
    (hwf : ∀ p ∈ pkts, PacketWF p) (hsl : sl < 4294967296)
    (hle : sl ≤ SNAPLEN_DEFAULT) :
    ValidPcapFile (writeFile d sl z sm pkts) :=
  ⟨buildFileHeader d sl z, sm, writeAllRecords sl sm pkts,
    ReadAndVerifyFileHeader_Init d sl z sm (writeAllRecords sl sm pkts),
    by rw [readAllE_writeAllRecords sl sm SNAPLEN_DEFAULT pkts hwf hsl hle]⟩

/-- C9: `Diff` of a valid pcap file against itself reports the files
identical, for any snapshot length passed to `Diff`. -/
theorem C9_diff_reflexive (snapLen : Nat) (bs : List Nat)
    (hv : ValidPcapFile bs) : (Diff bs bs snapLen).1 = false := by
  obtain ⟨h, s, r, hok, heof⟩ := hv
  rw [Diff_eq_false_iff]
  refine ⟨h, s, r, h, s, r, hok, hok, rfl, rfl, ?_, ?_⟩ <;>
    rw [readAllE_error_indep s snapLen SNAPLEN_DEFAULT r] <;> exact heof

theorem C9_diff_reflexive_witness :
    (Diff (writeFile 1 100 0 false
        [{ tsSec := 1, tsUsec := 2, data := [5], totalLen := 1 }])
      (writeFile 1 100 0 false
        [{ tsSec := 1, tsUsec := 2, data := [5], totalLen := 1 }]) 65535).1
      = false :=
  C9_diff_reflexive 65535 _
    (writeFile_valid 1 100 0 false
      [{ tsSec := 1, tsUsec := 2, data := [5], totalLen := 1 }]
      (by decide) (by norm_num) (by norm_num [SNAPLEN_DEFAULT]))

/-- Modelled from the spec: the error flag `Open` returns for a
read-validated mode (doc: false if the open succeeds, true
otherwise). -/
def OpenReadB (bs : List Nat) : Bool :=
  match ReadAndVerifyFileHeader bs with
  | .ok _ => false
  | .error _ => true

/-- Modelled from the spec: the error flag `Init` returns — true
exactly when a validated header already exists on the stream
(reinitializing a read-validated stream is a misuse error). -/
def InitB (haveFileHeader : Bool) : Bool := haveFileHeader

/-- Modelled from the spec: the error flag `Read` returns. -/
def ReadB (swapMode : Bool) (maxBytes : Nat) (bs : List Nat) : Bool :=
  match Read swapMode maxBytes bs with
  | .ok _ => false
  | .error _ => true

/-- C10: every fallible operation uses the inverted boolean
convention — Open, Init, Write and Read return false on success and
true on error, and Diff returns true exactly when the files differ
(including open/validation failures). -/
theorem C10_inverted_booleans :
    (∀ bs : List Nat, OpenReadB bs = false ↔
      ∃ h s r, ReadAndVerifyFileHeader bs = .ok (h, s, r)) ∧
    (∀ haveHeader : Bool, InitB haveHeader = true ↔ haveHeader = true) ∧
    (∀ (snapLen : Nat) (swapMode : Bool) (tsSec tsUsec : Nat)
        (data : List Nat) (totalLen : Nat),
      WriteB snapLen swapMode tsSec tsUsec data totalLen = false) ∧
    (∀ (swapMode : Bool) (maxBytes : Nat) (bs : List Nat),
      ReadB swapMode maxBytes bs = false ↔
        ∃ r rest, Read swapMode maxBytes bs = .ok (r, rest)) ∧
    (∀ (f1 f2 : List Nat) (snapLen : Nat),
      (Diff f1 f2 snapLen).1 = true ↔ ¬ FilesIdentical snapLen f1 f2) := by
  refine ⟨?_, fun _ => Iff.rfl, fun _ _ _ _ _ _ => rfl, ?_, ?_⟩
  · intro bs
    unfold OpenReadB
    cases hv : ReadAndVerifyFileHeader bs with
    | error e => simp
    | ok hr =>
        obtain ⟨h, s, r⟩ := hr
        exact ⟨fun _ => ⟨h, s, r, rfl⟩, fun _ => rfl⟩
  · intro swapMode maxBytes bs
    unfold ReadB
    cases hr : Read swapMode maxBytes bs with
    | error e => simp
    | ok pr =>
        obtain ⟨r, rest⟩ := pr
        exact ⟨fun _ => ⟨r, rest, rfl⟩, fun _ => rfl⟩
  · intro f1 f2 snapLen
    rw [← Diff_eq_false_iff]
    cases hd : (Diff f1 f2 snapLen).1 <;> simp

theorem C10_inverted_booleans_witness :
    WriteB 65535 false 1 2 [3] 1 = false :=
  C10_inverted_booleans.2.2.1 65535 false 1 2 [3] 1

end Pcap
